import Mathlib

/-!
Verification of the table-mutation and publish logic of
`src/update_confluence.py` (publish-confluence).

The HTML trees handled by the program are shallowly embedded: a table cell
is a tag (`th`/`td`) together with a flat list of child nodes, where a node
is either a raw text run or a `<p>` paragraph holding a string.  The
BeautifulSoup operations used by the source (`find("table")`,
`find_all("tr")`, `find_all(["th", "td"])`, `find_all(["td"])`,
`get_text(strip=True)`, `.p`, `.string = v`) are translated into total Lean
functions on these lists.  Python exceptions become an explicit error type;
since the source mutates the soup in place, the embedded function returns
both the Python return/raise outcome and the post-call state of the
caller's document, which is unchanged on every raising path.
-/

namespace Confluence

/-- The tag of a table cell: header cell `<th>` or data cell `<td>`. -/
inductive CellTag
  | th
  | td
deriving DecidableEq, Repr

/-- A child node of a table cell: a raw text run, or a `<p>` paragraph
holding a single string. -/
inductive Node
  | text (s : String)
  | para (s : String)
deriving DecidableEq, Repr

/-- A table cell: its tag and its flat list of children. -/
structure Cell where
  tag : CellTag
  children : List Node
deriving DecidableEq, Repr

/-- A table row `<tr>`: its list of cells. -/
structure Row where
  cells : List Cell
deriving DecidableEq, Repr

/-- A `<table>` element: its list of rows. -/
structure Table where
  rows : List Row
deriving DecidableEq, Repr

/-- A parsed page body (the BeautifulSoup document): its list of tables.
`soup.find("table")` is the head of this list. -/
structure Document where
  tables : List Table
deriving DecidableEq, Repr

/-- Python exceptions raised by `update_version_in_cell`.
`componentNotFound c` embeds `ValueError(f"Component '{c}' not found")` and
`environmentNotFound e` embeds `ValueError(f"Environment '{e}' not found")`;
the payload is the name interpolated into the message.  `indexError` and
`attributeError` embed the unnamed `IndexError` / `AttributeError` failures
of unguarded indexing and attribute access. -/
inductive Err
  | componentNotFound (component : String)
  | environmentNotFound (environment : String)
  | indexError
  | attributeError
deriving DecidableEq, Repr

/-- Lower-casing of one character, the ASCII fragment of Python
`str.lower()` (the strings the program compares are ASCII labels). -/
def charLower (c : Char) : Char :=
  if 65 ≤ c.toNat ∧ c.toNat ≤ 90 then Char.ofNat (c.toNat + 32) else c

/-- Upper-casing of one character, the ASCII fragment of Python
`str.upper()`. -/
def charUpper (c : Char) : Char :=
  if 97 ≤ c.toNat ∧ c.toNat ≤ 122 then Char.ofNat (c.toNat - 32) else c

/-- Python `s.lower()`. -/
def strLower (s : String) : String :=
  ⟨s.data.map charLower⟩

/-- Python `s.upper()`. -/
def strUpper (s : String) : String :=
  ⟨s.data.map charUpper⟩

/-- Whitespace as stripped by Python `str.strip()`. -/
def isWs (c : Char) : Bool :=
  decide (c = ' ') || decide (c = '\t') || decide (c = '\n') ||
    decide (c = '\r')

/-- Python `s.strip()`: drop whitespace from both ends. -/
def strStrip (s : String) : String :=
  ⟨((s.data.dropWhile isWs).reverse.dropWhile isWs).reverse⟩

/-- The text a node contributes to `get_text(strip=True)`: each string is
stripped of surrounding whitespace before joining. -/
def nodeText : Node → String
  | .text s => strStrip s
  | .para s => strStrip s

/-- `cell.get_text(strip=True)`: the stripped strings of the cell,
joined. -/
def getTextStripped (c : Cell) : String :=
  String.join (c.children.map nodeText)

/-- The component test of the header scan:
`cell.get_text(strip=True).lower() == component.lower()`. -/
def compMatches (component : String) (c : Cell) : Bool :=
  decide (strLower (getTextStripped c) = strLower component)

/-- The environment test of the data-row scan:
`env_cell = row.find(["th", "td"])` followed by
`env_cell and env_cell.get_text(strip=True).upper() == environment.upper()`.
A row without cells has `env_cell = None` and never matches. -/
def envRowMatches (environment : String) (r : Row) : Bool :=
  match r.cells with
  | [] => false
  | c :: _ => decide (strUpper (getTextStripped c) = strUpper environment)

/-- The header scan `for i, cell in enumerate(...)` with `break` on the
first match: index of the first cell matching the component. -/
def findCompIdx (component : String) : List Cell → Option Nat
  | [] => none
  | c :: rest =>
    if compMatches component c then some 0
    else (findCompIdx component rest).map (· + 1)

/-- The data-row scan `for row in table.find_all("tr")[2:]` with an early
`return`: the first row matching the environment, with its index. -/
def findEnvRow (environment : String) : List Row → Option (Nat × Row)
  | [] => none
  | r :: rest =>
    if envRowMatches environment r then some (0, r)
    else (findEnvRow environment rest).map (fun p => (p.1 + 1, p.2))

/-- Membership test of `row.find_all(["td"])`. -/
def isTd (c : Cell) : Bool :=
  decide (c.tag = CellTag.td)

/-- Whether a node is a `<p>` element. -/
def isParaNode : Node → Bool
  | .para _ => true
  | .text _ => false

/-- Whether `target_cell.p` is not `None`. -/
def hasPara (c : Cell) : Bool :=
  c.children.any isParaNode

/-- The string of `cell.p`, the first paragraph among the children. -/
def firstPara : List Node → Option String
  | [] => none
  | .para s :: _ => some s
  | .text _ :: rest => firstPara rest

/-- `cell.p.string = v`: replace the string of the first paragraph,
leaving every other node alone. -/
def setPara : List Node → String → List Node
  | [], _ => []
  | .para _ :: rest, v => .para v :: rest
  | .text s :: rest, v => .text s :: setPara rest v

/-- The cell after `cell.p.string = v`. -/
def modifyCell (c : Cell) (v : String) : Cell :=
  { c with children := setPara c.children v }

/-- In-place update `row.find_all(["td"])[k].p.string = v`: rewrite the
first paragraph of the k-th `td`-tagged cell of the list. -/
def setNthTd : List Cell → Nat → String → List Cell
  | [], _, _ => []
  | c :: rest, k, v =>
    if isTd c then
      match k with
      | 0 => modifyCell c v :: rest
      | k + 1 => c :: setNthTd rest k v
    else c :: setNthTd rest k v

/-- The absolute position (among all cells of the row) of the k-th
`td`-tagged cell, i.e. of `row.find_all(["td"])[k]`. -/
def posOfNthTd : List Cell → Nat → Option Nat
  | [], _ => none
  | c :: rest, k =>
    if isTd c then
      match k with
      | 0 => some 0
      | k + 1 => (posOfNthTd rest k).map (· + 1)
    else (posOfNthTd rest k).map (· + 1)

/-- Replace the row at index `j` (the in-place mutation of the matched
row, seen functionally); out-of-range indices leave the list alone. -/
def setRowAt : List Row → Nat → Row → List Row
  | [], _, _ => []
  | _ :: rest, 0, newR => newR :: rest
  | r :: rest, j + 1, newR => r :: setRowAt rest j newR

/-- `update_version_in_cell(soup, environment, component, new_version)`.

Mirrors the source line by line: take the first table (`soup.find("table")`,
`AttributeError` on `None` when absent), read the second header row
(`table.find_all("tr")[:2]` then `header_rows[1]`, `IndexError` when fewer
than two rows), scan its cells for the component and set
`component_index = i + 1` (first match wins, `ValueError` when absent),
then scan the rows from the third onward for the first whose first cell
matches the environment; there, write `new_version` into
`row.find_all(["td"])[component_index - 1].p` (`IndexError` / `AttributeError`
when the index or the paragraph is missing), and return.  No matching row
raises `ValueError`.  The first result component is the Python
return/raise outcome, the second the caller's document after the call. -/
def update_version_in_cell (soup : Document)
    (environment component new_version : String) :
    Except Err Document × Document :=
  match soup.tables with
  | [] => (Except.error Err.attributeError, soup)
  | table :: restTables =>
    match table.rows with
    | [] => (Except.error Err.indexError, soup)
    | [_] => (Except.error Err.indexError, soup)
    | row0 :: row1 :: dataRows =>
      match findCompIdx component row1.cells with
      | none => (Except.error (Err.componentNotFound component), soup)
      | some i =>
        let component_index := i + 1
        match findEnvRow environment dataRows with
        | none => (Except.error (Err.environmentNotFound environment), soup)
        | some (j, row) =>
          match (row.cells.filter isTd).get? (component_index - 1) with
          | none => (Except.error Err.indexError, soup)
          | some target_cell =>
            if hasPara target_cell then
              let updated : Document :=
                ⟨⟨row0 :: row1 :: setRowAt dataRows j
                    ⟨setNthTd row.cells (component_index - 1) new_version⟩⟩
                  :: restTables⟩
              (Except.ok updated, updated)
            else (Except.error Err.attributeError, soup)

/-- Serialization `str(updated_soup)` of a document back to storage-format
HTML (modelling BeautifulSoup's printer on the embedded fragment). -/
def serializeNode : Node → String
  | .text s => s
  | .para s => "<p>" ++ s ++ "</p>"

/-- Serialize one cell. -/
def serializeCell (c : Cell) : String :=
  match c.tag with
  | .th => "<th>" ++ String.join (c.children.map serializeNode) ++ "</th>"
  | .td => "<td>" ++ String.join (c.children.map serializeNode) ++ "</td>"

/-- Serialize one row. -/
def serializeRow (r : Row) : String :=
  "<tr>" ++ String.join (r.cells.map serializeCell) ++ "</tr>"

/-- Serialize one table. -/
def serializeTable (t : Table) : String :=
  "<table>" ++ String.join (t.rows.map serializeRow) ++ "</table>"

/-- Serialize the whole document (`str(updated_soup)`). -/
def serialize (d : Document) : String :=
  String.join (d.tables.map serializeTable)

/-- The value returned by `get_page_content(PAGE_ID)`: the parsed body and
the page title fetched from the remote API. -/
structure FetchResult where
  body : Document
  title : String
deriving DecidableEq, Repr

/-- One call to `confluence.update_page(...)`, recorded with its
arguments. -/
structure UpdateCall where
  page_id : String
  title : String
  body : String
  minor_edit : Bool
deriving DecidableEq, Repr

/-- `update_confluence_page(environment, component, new_version)`.

The fetch is the program's single read from the remote API; its response
is the `fetched` argument (`soup, current_title = get_page_content(PAGE_ID)`).
The function applies `update_version_in_cell`, serializes the result, and
issues one `confluence.update_page(page_id=PAGE_ID, title=current_title,
body=updated_content, minor_edit=True)` call.  The second result component
lists the update calls issued to the remote API during the run; a raising
mutator propagates and issues none. -/
def update_confluence_page (page_id : String) (fetched : FetchResult)
    (environment component new_version : String) :
    Except Err Unit × List UpdateCall :=
  let soup := fetched.body
  let current_title := fetched.title
  match (update_version_in_cell soup environment component new_version).1 with
  | Except.error e => (Except.error e, [])
  | Except.ok updated_soup =>
    (Except.ok (), [⟨page_id, current_title, serialize updated_soup, true⟩])

/-- The table at index `ti` of the document. -/
def tableAt (d : Document) (ti : Nat) : Option Table :=
  d.tables.get? ti

/-- The row at index `ri` of table `ti`. -/
def rowAt (d : Document) (ti ri : Nat) : Option Row :=
  match tableAt d ti with
  | none => none
  | some t => t.rows.get? ri

/-- The cell at index `ci` of row `ri` of table `ti`. -/
def cellAt (d : Document) (ti ri ci : Nat) : Option Cell :=
  match rowAt d ti ri with
  | none => none
  | some r => r.cells.get? ci

/-- The text of the first paragraph of the cell at the given position. -/
def paraTextAt (d : Document) (ti ri ci : Nat) : Option String :=
  match cellAt d ti ri ci with
  | none => none
  | some c => firstPara c.children

/-- The 1-based `component_index` the header scan of
`update_version_in_cell` computes on a document, when it finds one. -/
def componentIndexOf (d : Document) (component : String) : Option Nat :=
  match d.tables with
  | [] => none
  | t :: _ =>
    match t.rows with
    | _ :: r1 :: _ => (findCompIdx component r1.cells).map (· + 1)
    | _ => none

/-- The absolute index (among all rows of the first table) of the data row
the environment scan of `update_version_in_cell` selects, when it finds
one. -/
def envRowIndexOf (d : Document) (environment : String) : Option Nat :=
  match d.tables with
  | [] => none
  | t :: _ =>
    match t.rows with
    | _ :: _ :: drs => (findEnvRow environment drs).map (fun p => p.1 + 2)
    | _ => none

/-- A data cell as required by the spec's section 3 shape: a `td` holding
a single paragraph (the version string). -/
def isVersionCell (c : Cell) : Bool :=
  isTd c &&
    (match c.children with
     | [Node.para _] => true
     | _ => false)

/-- A data row of the shape the repository's fixtures use: a header-tagged
(`th`) environment cell followed by exactly one single-paragraph `td` per
header column. -/
def dataRowOk (ncols : Nat) (r : Row) : Bool :=
  match r.cells with
  | [] => false
  | c0 :: rest =>
    decide (c0.tag = CellTag.th) && decide (rest.length = ncols) &&
      rest.all isVersionCell

/-- Well-formed document: a first table whose rows are a decorative header,
the component header row, and data rows all of shape `dataRowOk`. -/
def wellFormed (d : Document) : Bool :=
  match d.tables with
  | [] => false
  | t :: _ =>
    match t.rows with
    | _ :: r1 :: drs => drs.all (dataRowOk r1.cells.length)
    | _ => false

/-- A data row of the looser shape the spec's section 3 literally states,
which leaves the tag of the first (environment) cell unconstrained: some
first cell followed by exactly one single-paragraph `td` per header
column. -/
def dataRowShapeMixed (ncols : Nat) (r : Row) : Bool :=
  match r.cells with
  | [] => false
  | _ :: rest =>
    decide (rest.length = ncols) && rest.all isVersionCell

/-- Document of the spec's section 3 shape with the first-cell tag left
free (hand-authored tables may mix `th` and `td` there). -/
def specShaped (d : Document) : Bool :=
  match d.tables with
  | [] => false
  | t :: _ =>
    match t.rows with
    | _ :: r1 :: drs => drs.all (dataRowShapeMixed r1.cells.length)
    | _ => false

/-- The decorative first header row of the repository's test fixture
`HTML_CONTENT` (the fixture table: this row, then the component header row
`cpt1 / cpt2 / cpt3`, then a `DEV` data row whose first cell is a `th`). -/
def sampleRow0 : Row :=
  ⟨[⟨CellTag.th, [Node.text ("Environment")]⟩,
    ⟨CellTag.th, [Node.text ("Application Components")]⟩]⟩

/-- The component header row of the test fixture. -/
def sampleRow1 : Row :=
  ⟨[⟨CellTag.td, [Node.text ("cpt1")]⟩,
    ⟨CellTag.td, [Node.text ("cpt2")]⟩,
    ⟨CellTag.td, [Node.text ("cpt3")]⟩]⟩

/-- The `DEV` data row of the test fixture (`th` first cell). -/
def sampleRow2 : Row :=
  ⟨[⟨CellTag.th, [Node.text ("DEV")]⟩,
    ⟨CellTag.td, [Node.para ("1.0.0")]⟩,
    ⟨CellTag.td, [Node.para ("")]⟩,
    ⟨CellTag.td, [Node.para ("")]⟩]⟩

/-- The document of the test fixture. -/
def sampleDoc : Document :=
  ⟨[⟨[sampleRow0, sampleRow1, sampleRow2]⟩]⟩

/-- The `DEV` data row of the test fixture after the `cpt1` version is set
to `2.3.4`. -/
def sampleRow2Updated : Row :=
  ⟨[⟨CellTag.th, [Node.text ("DEV")]⟩,
    ⟨CellTag.td, [Node.para ("2.3.4")]⟩,
    ⟨CellTag.td, [Node.para ("")]⟩,
    ⟨CellTag.td, [Node.para ("")]⟩]⟩

/-- The test-fixture document after updating (`DEV`, `cpt1`) to `2.3.4`. -/
def sampleDocUpdated : Document :=
  ⟨[⟨[sampleRow0, sampleRow1, sampleRow2Updated]⟩]⟩

/-- Decorative header row of the mixed-tag table. -/
def mixedRow0 : Row :=
  ⟨[⟨CellTag.th, [Node.text ("Deployments")]⟩]⟩

/-- Component header row `cpt1` / `cpt2` of the mixed-tag table. -/
def mixedRow1 : Row :=
  ⟨[⟨CellTag.td, [Node.text ("cpt1")]⟩,
    ⟨CellTag.td, [Node.text ("cpt2")]⟩]⟩

/-- A hand-authored data row that starts with a data-tagged (`td`)
environment cell — the mixed cell-tag usage the spec says is expected.
The `cpt1` version is `A`, the `cpt2` version is `B`. -/
def mixedRow2 : Row :=
  ⟨[⟨CellTag.td, [Node.text ("DEV")]⟩,
    ⟨CellTag.td, [Node.para ("A")]⟩,
    ⟨CellTag.td, [Node.para ("B")]⟩]⟩

/-- The mixed-tag document: decorative row, header row `cpt1` / `cpt2`,
and `mixedRow2`. -/
def mixedDoc : Document :=
  ⟨[⟨[mixedRow0, mixedRow1, mixedRow2]⟩]⟩

/-- `mixedDoc` after the program writes version `v` for (`DEV`, `cpt2`):
the paragraph that changes is in the `cpt1` column. -/
def mixedDocAfter (v : String) : Document :=
  ⟨[⟨[mixedRow0, mixedRow1,
      ⟨[⟨CellTag.td, [Node.text ("DEV")]⟩,
        ⟨CellTag.td, [Node.para v]⟩,
        ⟨CellTag.td, [Node.para ("B")]⟩]⟩]⟩]⟩

/-- Decorative header row of `idemDoc`. -/
def idemRow0 : Row :=
  ⟨[⟨CellTag.th, [Node.text ("Deployments")]⟩]⟩

/-- Single-column component header row of `idemDoc`. -/
def idemRow1 : Row :=
  ⟨[⟨CellTag.td, [Node.text ("cpt1")]⟩]⟩

/-- A `DEV` data row whose first cell is a data-tagged `td` holding the
environment name inside a paragraph. -/
def idemRowA : Row :=
  ⟨[⟨CellTag.td, [Node.para ("DEV")]⟩,
    ⟨CellTag.td, [Node.para ("1.0")]⟩]⟩

/-- Second `DEV` data row of `idemDoc`, identical to the first. -/
def idemRowB : Row :=
  ⟨[⟨CellTag.td, [Node.para ("DEV")]⟩,
    ⟨CellTag.td, [Node.para ("1.0")]⟩]⟩

/-- The document used to probe idempotence on mixed-tag rows. -/
def idemDoc : Document :=
  ⟨[⟨[idemRow0, idemRow1, idemRowA, idemRowB]⟩]⟩

/-- A `DEV` data row of `idemDoc` after its first paragraph — the one in
its environment cell — is overwritten with `2.0`. -/
def idemRowHit : Row :=
  ⟨[⟨CellTag.td, [Node.para ("2.0")]⟩,
    ⟨CellTag.td, [Node.para ("1.0")]⟩]⟩

/-- `idemDoc` after one update for (`DEV`, `cpt1`, `2.0`). -/
def idemDocOnce : Document :=
  ⟨[⟨[idemRow0, idemRow1, idemRowHit, idemRowB]⟩]⟩

/-- `idemDoc` after applying the same update twice: the second application
no longer recognises the first row and rewrites the second. -/
def idemDocTwice : Document :=
  ⟨[⟨[idemRow0, idemRow1, idemRowHit, idemRowHit]⟩]⟩

/-- A table whose `DEV` data row has fewer `td` cells than the header has
columns: header `cpt1` / `cpt2`, data row with a single version cell. -/
def shortRow : Row :=
  ⟨[⟨CellTag.th, [Node.text ("DEV")]⟩,
    ⟨CellTag.td, [Node.para ("x")]⟩]⟩

/-- The document with the too-short data row. -/
def shortDoc : Document :=
  ⟨[⟨[mixedRow0, mixedRow1, shortRow]⟩]⟩

/-- Data rows with the same environment name `DEV`, for the first-match
tie-break: first duplicate. -/
def dupRowA : Row :=
  ⟨[⟨CellTag.th, [Node.text ("DEV")]⟩,
    ⟨CellTag.td, [Node.para ("a1")]⟩,
    ⟨CellTag.td, [Node.para ("a2")]⟩]⟩

/-- Second duplicate `DEV` row. -/
def dupRowB : Row :=
  ⟨[⟨CellTag.th, [Node.text ("DEV")]⟩,
    ⟨CellTag.td, [Node.para ("b1")]⟩,
    ⟨CellTag.td, [Node.para ("b2")]⟩]⟩

/-- Header row naming the same component `cpt1` in both columns. -/
def dupRow1 : Row :=
  ⟨[⟨CellTag.td, [Node.text ("cpt1")]⟩,
    ⟨CellTag.td, [Node.text ("cpt1")]⟩]⟩

/-- Document with duplicate component columns and duplicate environment
rows. -/
def dupDoc : Document :=
  ⟨[⟨[mixedRow0, dupRow1, dupRowA, dupRowB]⟩]⟩

/-- `dupDoc` after updating (`DEV`, `cpt1`) to `9.9`: only the first
duplicate row changes, in its first component column. -/
def dupDocAfter : Document :=
  ⟨[⟨[mixedRow0, dupRow1,
      ⟨[⟨CellTag.th, [Node.text ("DEV")]⟩,
        ⟨CellTag.td, [Node.para ("9.9")]⟩,
        ⟨CellTag.td, [Node.para ("a2")]⟩]⟩,
      dupRowB]⟩]⟩

/-! ### Specification lemmas for the scan and mutation helpers -/

theorem findCompIdx_spec (component : String) :
    ∀ (cells : List Cell) (i : Nat), findCompIdx component cells = some i →
      i < cells.length ∧
      (∃ cell, cells.get? i = some cell ∧ compMatches component cell = true) ∧
      ∀ i' cell', i' < i → cells.get? i' = some cell' →
        compMatches component cell' = false := by
  intro cells
  induction cells with
  | nil => intro i h; simp [findCompIdx] at h
  | cons c rest ih =>
    intro i h
    by_cases hc : compMatches component c
    · simp [findCompIdx, hc] at h
      subst h
      refine ⟨by simp, ⟨c, by simp, hc⟩, ?_⟩
      intro i' cell' hlt
      omega
    · simp [findCompIdx, hc] at h
      obtain ⟨i₀, h₀, hi⟩ := h
      obtain ⟨hlen, ⟨cell, hget, hm⟩, hmin⟩ := ih i₀ h₀
      subst hi
      refine ⟨by simpa using hlen, ⟨cell, by simpa using hget, hm⟩, ?_⟩
      intro i' cell' hlt hget'
      match i' with
      | 0 =>
        simp at hget'
        subst hget'
        simpa using hc
      | i'' + 1 =>
        exact hmin i'' cell' (by omega) (by simpa using hget')

theorem findCompIdx_eq_none (component : String) :
    ∀ (cells : List Cell),
      (∀ cell ∈ cells, compMatches component cell = false) →
      findCompIdx component cells = none := by
  intro cells
  induction cells with
  | nil => intro _; rfl
  | cons c rest ih =>
    intro h
    have hc : compMatches component c = false := h c (by simp)
    have hrest := ih (fun cell hm => h cell (by simp [hm]))
    simp [findCompIdx, hc, hrest]

theorem findCompIdx_of_any (component : String) :
    ∀ (cells : List Cell), cells.any (compMatches component) = true →
      ∃ i, findCompIdx component cells = some i := by
  intro cells
  induction cells with
  | nil => intro h; simp at h
  | cons c rest ih =>
    intro h
    by_cases hc : compMatches component c
    · exact ⟨0, by simp [findCompIdx, hc]⟩
    · simp [hc] at h
      obtain ⟨i₀, h₀⟩ := ih (by simpa using h)
      exact ⟨i₀ + 1, by simp [findCompIdx, hc, h₀]⟩

theorem findEnvRow_spec (environment : String) :
    ∀ (rows : List Row) (j : Nat) (r : Row),
      findEnvRow environment rows = some (j, r) →
      j < rows.length ∧ rows.get? j = some r ∧
        envRowMatches environment r = true ∧
        ∀ j' r', j' < j → rows.get? j' = some r' →
          envRowMatches environment r' = false := by
  intro rows
  induction rows with
  | nil => intro j r h; simp [findEnvRow] at h
  | cons r₀ rest ih =>
    intro j r h
    by_cases hr : envRowMatches environment r₀
    · simp [findEnvRow, hr] at h
      obtain ⟨hj, hr'⟩ := h
      subst hj; subst hr'
      exact ⟨by simp, by simp, hr, fun j' r' hlt => by omega⟩
    · cases hfe : findEnvRow environment rest with
      | none => simp [findEnvRow, hr, hfe] at h
      | some p =>
      obtain ⟨j₀, r₀'⟩ := p
      simp [findEnvRow, hr, hfe] at h
      obtain ⟨hj, hr'⟩ := h
      subst hj; subst hr'
      obtain ⟨hlen, hget, hm, hmin⟩ := ih j₀ r₀' hfe
      refine ⟨by simpa using hlen, by simpa using hget, hm, ?_⟩
      intro j' r' hlt hget'
      match j' with
      | 0 =>
        simp at hget'
        subst hget'
        simpa using hr
      | j'' + 1 =>
        exact hmin j'' r' (by omega) (by simpa using hget')

theorem findEnvRow_eq_none (environment : String) :
    ∀ (rows : List Row),
      (∀ r ∈ rows, envRowMatches environment r = false) →
      findEnvRow environment rows = none := by
  intro rows
  induction rows with
  | nil => intro _; rfl
  | cons r₀ rest ih =>
    intro h
    have hr : envRowMatches environment r₀ = false := h r₀ (by simp)
    have hrest := ih (fun r hm => h r (by simp [hm]))
    simp [findEnvRow, hr, hrest]

theorem findEnvRow_of_any (environment : String) :
    ∀ (rows : List Row), rows.any (envRowMatches environment) = true →
      ∃ j r, findEnvRow environment rows = some (j, r) := by
  intro rows
  induction rows with
  | nil => intro h; simp at h
  | cons r₀ rest ih =>
    intro h
    by_cases hr : envRowMatches environment r₀
    · exact ⟨0, r₀, by simp [findEnvRow, hr]⟩
    · simp [hr] at h
      obtain ⟨j₀, r, h₀⟩ := ih (by simpa using h)
      exact ⟨j₀ + 1, r, by simp [findEnvRow, hr, h₀]⟩

theorem setRowAt_length :
    ∀ (rows : List Row) (j : Nat) (r : Row),
      (setRowAt rows j r).length = rows.length := by
  intro rows
  induction rows with
  | nil => intro j r; rfl
  | cons r₀ rest ih =>
    intro j r
    match j with
    | 0 => rfl
    | j' + 1 => simp [setRowAt, ih]

theorem setRowAt_get?_self :
    ∀ (rows : List Row) (j : Nat) (r : Row), j < rows.length →
      (setRowAt rows j r).get? j = some r := by
  intro rows
  induction rows with
  | nil => intro j r h; simp at h
  | cons r₀ rest ih =>
    intro j r h
    match j with
    | 0 => rfl
    | j' + 1 =>
      simpa [setRowAt] using ih j' r (by simpa using h)

theorem setRowAt_get?_other :
    ∀ (rows : List Row) (j : Nat) (r : Row) (i : Nat), i ≠ j →
      (setRowAt rows j r).get? i = rows.get? i := by
  intro rows
  induction rows with
  | nil => intro j r i _; rfl
  | cons r₀ rest ih =>
    intro j r i hne
    match j, i with
    | 0, 0 => omega
    | 0, i' + 1 => rfl
    | j' + 1, 0 => rfl
    | j' + 1, i' + 1 =>
      simpa [setRowAt] using ih j' r i' (by omega)

theorem setPara_setPara :
    ∀ (ns : List Node) (v : String), setPara (setPara ns v) v = setPara ns v := by
  intro ns
  induction ns with
  | nil => intro v; rfl
  | cons n rest ih =>
    intro v
    cases n with
    | para s => rfl
    | text s => simp [setPara, ih]

theorem modifyCell_tag (c : Cell) (v : String) :
    (modifyCell c v).tag = c.tag := rfl

theorem isTd_modifyCell (c : Cell) (v : String) :
    isTd (modifyCell c v) = isTd c := rfl

theorem modifyCell_modifyCell (c : Cell) (v : String) :
    modifyCell (modifyCell c v) v = modifyCell c v := by
  simp [modifyCell, setPara_setPara]

theorem setNthTd_length :
    ∀ (cells : List Cell) (k : Nat) (v : String),
      (setNthTd cells k v).length = cells.length := by
  intro cells
  induction cells with
  | nil => intro k v; rfl
  | cons c rest ih =>
    intro k v
    by_cases hc : isTd c
    · match k with
      | 0 => simp [setNthTd, hc]
      | k' + 1 => simp [setNthTd, hc, ih]
    · simp [setNthTd, hc, ih]

theorem setNthTd_setNthTd :
    ∀ (cells : List Cell) (k : Nat) (v : String),
      setNthTd (setNthTd cells k v) k v = setNthTd cells k v := by
  intro cells
  induction cells with
  | nil => intro k v; rfl
  | cons c rest ih =>
    intro k v
    by_cases hc : isTd c
    · match k with
      | 0 =>
        simp [setNthTd, hc, isTd_modifyCell, modifyCell_modifyCell]
      | k' + 1 =>
        simp [setNthTd, hc, ih]
    · simp [setNthTd, hc, ih]

theorem posOfNthTd_all_td :
    ∀ (cells : List Cell) (k : Nat), cells.all isTd = true → k < cells.length →
      posOfNthTd cells k = some k := by
  intro cells
  induction cells with
  | nil => intro k _ hk; simp at hk
  | cons c rest ih =>
    intro k hall hk
    simp at hall
    obtain ⟨hc, hrest⟩ := hall
    match k with
    | 0 => simp [posOfNthTd, hc]
    | k' + 1 =>
      have := ih k' (by simpa [List.all_eq_true] using hrest) (by simpa using hk)
      simp [posOfNthTd, hc, this]

theorem posOfNthTd_of_filter :
    ∀ (cells : List Cell) (k : Nat) (t : Cell),
      (cells.filter isTd).get? k = some t →
      ∃ m, posOfNthTd cells k = some m ∧ cells.get? m = some t := by
  intro cells
  induction cells with
  | nil => intro k t h; simp [List.filter] at h
  | cons c rest ih =>
    intro k t h
    by_cases hc : isTd c
    · rw [List.filter_cons_of_pos (by simpa using hc)] at h
      match k with
      | 0 =>
        simp at h
        exact ⟨0, by simp [posOfNthTd, hc], by simpa using h⟩
      | k' + 1 =>
        simp only [List.get?_cons_succ] at h
        obtain ⟨m, hm, hget⟩ := ih k' t h
        exact ⟨m + 1, by simp [posOfNthTd, hc, hm], by simpa using hget⟩
    · rw [List.filter_cons_of_neg (by simpa using hc)] at h
      obtain ⟨m, hm, hget⟩ := ih k t h
      exact ⟨m + 1, by simp [posOfNthTd, hc, hm], by simpa using hget⟩

theorem posOfNthTd_filter_get :
    ∀ (cells : List Cell) (k m : Nat),
      posOfNthTd cells k = some m →
      (cells.filter isTd).get? k = cells.get? m := by
  intro cells
  induction cells with
  | nil => intro k m h; simp [posOfNthTd] at h
  | cons c rest ih =>
    intro k m h
    by_cases hc : isTd c
    · rw [List.filter_cons_of_pos (by simpa using hc)]
      match k with
      | 0 =>
        simp [posOfNthTd, hc] at h
        subst h
        simp
      | k' + 1 =>
        simp [posOfNthTd, hc] at h
        obtain ⟨m₀, hm₀, hm⟩ := h
        subst hm
        simpa using ih k' m₀ hm₀
    · rw [List.filter_cons_of_neg (by simpa using hc)]
      simp [posOfNthTd, hc] at h
      obtain ⟨m₀, hm₀, hm⟩ := h
      subst hm
      simpa using ih k m₀ hm₀

theorem setNthTd_get?_pos :
    ∀ (cells : List Cell) (k : Nat) (v : String) (m : Nat),
      posOfNthTd cells k = some m →
      (setNthTd cells k v).get? m = (cells.get? m).map (fun c => modifyCell c v) := by
  intro cells
  induction cells with
  | nil => intro k v m h; simp [posOfNthTd] at h
  | cons c rest ih =>
    intro k v m h
    by_cases hc : isTd c
    · match k with
      | 0 =>
        simp [posOfNthTd, hc] at h
        subst h
        simp [setNthTd, hc]
      | k' + 1 =>
        simp [posOfNthTd, hc] at h
        obtain ⟨m₀, hm₀, hm⟩ := h
        subst hm
        simpa [setNthTd, hc] using ih k' v m₀ hm₀
    · simp [posOfNthTd, hc] at h
      obtain ⟨m₀, hm₀, hm⟩ := h
      subst hm
      simpa [setNthTd, hc] using ih k v m₀ hm₀

theorem setNthTd_get?_other :
    ∀ (cells : List Cell) (k : Nat) (v : String) (m i : Nat),
      posOfNthTd cells k = some m → i ≠ m →
      (setNthTd cells k v).get? i = cells.get? i := by
  intro cells
  induction cells with
  | nil => intro k v m i h _; simp [posOfNthTd] at h
  | cons c rest ih =>
    intro k v m i h hne
    by_cases hc : isTd c
    · match k with
      | 0 =>
        simp [posOfNthTd, hc] at h
        subst h
        match i with
        | 0 => omega
        | i' + 1 => simp [setNthTd, hc]
      | k' + 1 =>
        simp [posOfNthTd, hc] at h
        obtain ⟨m₀, hm₀, hm⟩ := h
        subst hm
        match i with
        | 0 => simp [setNthTd, hc]
        | i' + 1 =>
          simpa [setNthTd, hc] using ih k' v m₀ i' hm₀ (by omega)
    · simp [posOfNthTd, hc] at h
      obtain ⟨m₀, hm₀, hm⟩ := h
      subst hm
      match i with
      | 0 => simp [setNthTd, hc]
      | i' + 1 =>
        simpa [setNthTd, hc] using ih k v m₀ i' hm₀ (by omega)

theorem setRowAt_idem :
    ∀ (rows : List Row) (j : Nat) (r : Row),
      setRowAt (setRowAt rows j r) j r = setRowAt rows j r := by
  intro rows
  induction rows with
  | nil => intro j r; rfl
  | cons r₀ rest ih =>
    intro j r
    match j with
    | 0 => rfl
    | j' + 1 => simp [setRowAt, ih]

theorem isVersionCell_elim (c : Cell) (h : isVersionCell c = true) :
    c.tag = CellTag.td ∧ ∃ s, c.children = [Node.para s] := by
  unfold isVersionCell at h
  simp [isTd] at h
  obtain ⟨htag, hch⟩ := h
  refine ⟨htag, ?_⟩
  cases hc : c.children with
  | nil => rw [hc] at hch; simp at hch
  | cons n rest =>
    cases n with
    | text s => rw [hc] at hch; simp at hch
    | para s =>
      cases rest with
      | nil => exact ⟨s, rfl⟩
      | cons n' rest' => rw [hc] at hch; simp at hch

theorem isTd_of_versionCell (c : Cell) (h : isVersionCell c = true) :
    isTd c = true := by
  have := (isVersionCell_elim c h).1
  simp [isTd, this]

theorem hasPara_of_versionCell (c : Cell) (h : isVersionCell c = true) :
    hasPara c = true := by
  obtain ⟨-, s, hch⟩ := isVersionCell_elim c h
  simp [hasPara, hch, isParaNode]

theorem modifyCell_versionCell (c : Cell) (v : String)
    (h : isVersionCell c = true) :
    isVersionCell (modifyCell c v) = true ∧
      (modifyCell c v).children = [Node.para v] := by
  obtain ⟨htag, s, hch⟩ := isVersionCell_elim c h
  constructor
  · simp [isVersionCell, isTd, modifyCell, htag, hch, setPara]
  · simp [modifyCell, hch, setPara]

theorem filter_isTd_of_all_version (rest : List Cell)
    (h : rest.all isVersionCell = true) :
    rest.filter isTd = rest := by
  induction rest with
  | nil => rfl
  | cons c rest' ih =>
    simp only [List.all_cons, Bool.and_eq_true] at h
    rw [List.filter_cons_of_pos (by simpa using isTd_of_versionCell c h.1)]
    rw [ih h.2]

theorem setNthTd_cons_not_td (c : Cell) (rest : List Cell) (k : Nat)
    (v : String) (h : isTd c = false) :
    setNthTd (c :: rest) k v = c :: setNthTd rest k v := by
  simp [setNthTd, h]

theorem setNthTd_all_version (rest : List Cell) :
    ∀ (k : Nat) (v : String), rest.all isVersionCell = true →
      (setNthTd rest k v).all isVersionCell = true := by
  induction rest with
  | nil => intro k v _; rfl
  | cons c rest' ih =>
    intro k v h
    simp only [List.all_cons, Bool.and_eq_true] at h
    have htd : isTd c = true := isTd_of_versionCell c h.1
    match k with
    | 0 =>
      simp only [setNthTd, htd, if_pos rfl]
      simp [List.all_cons, (modifyCell_versionCell c v h.1).1, h.2]
    | k' + 1 =>
      simp only [setNthTd, htd, if_pos rfl]
      simp [List.all_cons, h.1, ih k' v h.2]

theorem envRowMatches_cons (environment : String) (c : Cell)
    (xs ys : List Cell) :
    envRowMatches environment ⟨c :: xs⟩ =
      envRowMatches environment ⟨c :: ys⟩ := rfl

theorem findEnvRow_setRowAt (environment : String) :
    ∀ (rows : List Row) (j : Nat) (r newR : Row),
      findEnvRow environment rows = some (j, r) →
      envRowMatches environment newR = true →
      findEnvRow environment (setRowAt rows j newR) = some (j, newR) := by
  intro rows
  induction rows with
  | nil => intro j r newR h _; simp [findEnvRow] at h
  | cons r₀ rest ih =>
    intro j r newR h hm
    by_cases hr : envRowMatches environment r₀
    · simp [findEnvRow, hr] at h
      obtain ⟨hj, -⟩ := h
      subst hj
      simp [setRowAt, findEnvRow, hm]
    · cases hfe : findEnvRow environment rest with
      | none => simp [findEnvRow, hr, hfe] at h
      | some p =>
        obtain ⟨j₀, r₀'⟩ := p
        simp [findEnvRow, hr, hfe] at h
        obtain ⟨hj, -⟩ := h
        subst hj
        simp [setRowAt, findEnvRow, hr, ih j₀ r₀' newR hfe hm]

/-! ### Run lemmas: how `update_version_in_cell` evaluates on each path -/

theorem update_run_ok (ts : List Table) (r0 r1 : Row) (drs : List Row)
    (environment component new_version : String) (i j : Nat) (row : Row)
    (target : Cell)
    (hcomp : findCompIdx component r1.cells = some i)
    (henv : findEnvRow environment drs = some (j, row))
    (htgt : (row.cells.filter isTd).get? i = some target)
    (hp : hasPara target = true) :
    update_version_in_cell ⟨⟨r0 :: r1 :: drs⟩ :: ts⟩
        environment component new_version =
      (Except.ok (⟨⟨r0 :: r1 ::
          setRowAt drs j ⟨setNthTd row.cells i new_version⟩⟩ :: ts⟩ : Document),
       ⟨⟨r0 :: r1 ::
          setRowAt drs j ⟨setNthTd row.cells i new_version⟩⟩ :: ts⟩) := by
  have htgt' : (row.cells.filter isTd)[i]? = some target := by
    rw [← List.get?_eq_getElem?]; exact htgt
  simp [update_version_in_cell, hcomp, henv, htgt', hp]

theorem update_run_component_not_found (ts : List Table) (r0 r1 : Row)
    (drs : List Row) (environment component new_version : String)
    (hcomp : findCompIdx component r1.cells = none) :
    update_version_in_cell ⟨⟨r0 :: r1 :: drs⟩ :: ts⟩
        environment component new_version =
      (Except.error (Err.componentNotFound component),
       ⟨⟨r0 :: r1 :: drs⟩ :: ts⟩) := by
  simp [update_version_in_cell, hcomp]

theorem update_run_environment_not_found (ts : List Table) (r0 r1 : Row)
    (drs : List Row) (environment component new_version : String) (i : Nat)
    (hcomp : findCompIdx component r1.cells = some i)
    (henv : findEnvRow environment drs = none) :
    update_version_in_cell ⟨⟨r0 :: r1 :: drs⟩ :: ts⟩
        environment component new_version =
      (Except.error (Err.environmentNotFound environment),
       ⟨⟨r0 :: r1 :: drs⟩ :: ts⟩) := by
  simp [update_version_in_cell, hcomp, henv]

theorem update_run_index_error (ts : List Table) (r0 r1 : Row)
    (drs : List Row) (environment component new_version : String) (i j : Nat)
    (row : Row)
    (hcomp : findCompIdx component r1.cells = some i)
    (henv : findEnvRow environment drs = some (j, row))
    (htgt : (row.cells.filter isTd).get? i = none) :
    update_version_in_cell ⟨⟨r0 :: r1 :: drs⟩ :: ts⟩
        environment component new_version =
      (Except.error Err.indexError, ⟨⟨r0 :: r1 :: drs⟩ :: ts⟩) := by
  have htgt' : (row.cells.filter isTd)[i]? = none := by
    rw [← List.get?_eq_getElem?]; exact htgt
  simp [update_version_in_cell, hcomp, henv, htgt']

theorem update_run_attribute_error (ts : List Table) (r0 r1 : Row)
    (drs : List Row) (environment component new_version : String) (i j : Nat)
    (row : Row) (target : Cell)
    (hcomp : findCompIdx component r1.cells = some i)
    (henv : findEnvRow environment drs = some (j, row))
    (htgt : (row.cells.filter isTd).get? i = some target)
    (hp : hasPara target = false) :
    update_version_in_cell ⟨⟨r0 :: r1 :: drs⟩ :: ts⟩
        environment component new_version =
      (Except.error Err.attributeError, ⟨⟨r0 :: r1 :: drs⟩ :: ts⟩) := by
  have htgt' : (row.cells.filter isTd)[i]? = some target := by
    rw [← List.get?_eq_getElem?]; exact htgt
  simp [update_version_in_cell, hcomp, henv, htgt', hp]

theorem update_ok_inv (ts : List Table) (r0 r1 : Row) (drs : List Row)
    (environment component new_version : String) (d' : Document)
    (h : (update_version_in_cell ⟨⟨r0 :: r1 :: drs⟩ :: ts⟩
        environment component new_version).1 = Except.ok d') :
    ∃ i j row target,
      findCompIdx component r1.cells = some i ∧
      findEnvRow environment drs = some (j, row) ∧
      (row.cells.filter isTd).get? i = some target ∧ hasPara target = true ∧
      d' = ⟨⟨r0 :: r1 ::
        setRowAt drs j ⟨setNthTd row.cells i new_version⟩⟩ :: ts⟩ := by
  cases hcomp : findCompIdx component r1.cells with
  | none =>
    rw [update_run_component_not_found ts r0 r1 drs
      environment component new_version hcomp] at h
    simp at h
  | some i =>
    cases henv : findEnvRow environment drs with
    | none =>
      rw [update_run_environment_not_found ts r0 r1 drs
        environment component new_version i hcomp henv] at h
      simp at h
    | some p =>
      obtain ⟨j, row⟩ := p
      cases htgt : (row.cells.filter isTd).get? i with
      | none =>
        rw [update_run_index_error ts r0 r1 drs
          environment component new_version i j row hcomp henv htgt] at h
        simp at h
      | some target =>
        cases hp : hasPara target with
        | false =>
          rw [update_run_attribute_error ts r0 r1 drs
            environment component new_version i j row target
            hcomp henv htgt hp] at h
          simp at h
        | true =>
          rw [update_run_ok ts r0 r1 drs
            environment component new_version i j row target
            hcomp henv htgt hp] at h
          simp at h
          exact ⟨i, j, row, target, rfl, rfl, htgt, hp, h.symm⟩

theorem rowAt_cons0 (ts : List Table) (r0 r1 : Row) (X : List Row) :
    rowAt ⟨⟨r0 :: r1 :: X⟩ :: ts⟩ 0 0 = some r0 := rfl

theorem rowAt_cons1 (ts : List Table) (r0 r1 : Row) (X : List Row) :
    rowAt ⟨⟨r0 :: r1 :: X⟩ :: ts⟩ 0 1 = some r1 := rfl

theorem rowAt_cons2 (ts : List Table) (r0 r1 : Row) (X : List Row)
    (ri : Nat) :
    rowAt ⟨⟨r0 :: r1 :: X⟩ :: ts⟩ 0 (ri + 2) = X.get? ri := rfl

theorem cellAt_eq (d : Document) (ti ri ci : Nat) :
    cellAt d ti ri ci =
      match rowAt d ti ri with
      | none => none
      | some r => r.cells.get? ci := rfl

theorem cellAt_tail (t : Table) (ts : List Table) (t' : Table)
    (n ri ci : Nat) :
    cellAt ⟨t :: ts⟩ (n + 1) ri ci = cellAt ⟨t' :: ts⟩ (n + 1) ri ci := rfl

theorem paraTextAt_eq (d : Document) (ti ri ci : Nat) :
    paraTextAt d ti ri ci =
      match cellAt d ti ri ci with
      | none => none
      | some c => firstPara c.children := rfl

/-! ### Claim theorems -/

/-- C3: for every document having a second header row none of whose cells
matches the component (case-insensitive equality on the stripped cell
text), `update_version_in_cell` raises the `ValueError` naming the missing
component, and the document is unchanged — the call returns the untouched
document state. -/
theorem claim_C3 (ts : List Table) (r0 r1 : Row) (drs : List Row)
    (environment component new_version : String)
    (hnone : ∀ cell ∈ r1.cells, compMatches component cell = false) :
    update_version_in_cell ⟨⟨r0 :: r1 :: drs⟩ :: ts⟩
        environment component new_version =
      (Except.error (Err.componentNotFound component),
       ⟨⟨r0 :: r1 :: drs⟩ :: ts⟩) :=
  update_run_component_not_found ts r0 r1 drs environment component
    new_version (findCompIdx_eq_none component r1.cells hnone)

/-- Witness for C3: at the repository's test fixture, requesting the
absent component `cpt_missing` raises the component-not-found error and
leaves the document untouched. -/
theorem claim_C3_witness :
    update_version_in_cell sampleDoc ("DEV") ("cpt_missing") ("2.3.4") =
      (Except.error (Err.componentNotFound ("cpt_missing")), sampleDoc) :=
  claim_C3 [] sampleRow0 sampleRow1 [sampleRow2] ("DEV") ("cpt_missing")
    ("2.3.4") (by decide)

/-- C4: for every document whose header row contains the component but
none of whose data rows has a first cell matching the environment
(case-insensitive equality on the stripped cell text),
`update_version_in_cell` raises the `ValueError` naming the missing
environment, and the document is unchanged. -/
theorem claim_C4 (ts : List Table) (r0 r1 : Row) (drs : List Row)
    (environment component new_version : String) (i : Nat)
    (hcomp : findCompIdx component r1.cells = some i)
    (hnone : ∀ r ∈ drs, envRowMatches environment r = false) :
    update_version_in_cell ⟨⟨r0 :: r1 :: drs⟩ :: ts⟩
        environment component new_version =
      (Except.error (Err.environmentNotFound environment),
       ⟨⟨r0 :: r1 :: drs⟩ :: ts⟩) :=
  update_run_environment_not_found ts r0 r1 drs environment component
    new_version i hcomp (findEnvRow_eq_none environment drs hnone)

/-- Witness for C4: at the test fixture, requesting the absent environment
`PROD` for the present component `cpt1` raises the environment-not-found
error and leaves the document untouched. -/
theorem claim_C4_witness :
    update_version_in_cell sampleDoc ("PROD") ("cpt1") ("2.3.4") =
      (Except.error (Err.environmentNotFound ("PROD")), sampleDoc) :=
  claim_C4 [] sampleRow0 sampleRow1 [sampleRow2] ("PROD") ("cpt1") ("2.3.4")
    0 (by decide) (by decide)

/-- C5: on every successful run of `update_confluence_page`, with the
fetch returning title `T` and the mutator producing body `B`, exactly one
update call is issued, carrying the configured page id, the fetched title
`T`, the serialization of `B`, and `minor_edit = true`. -/
theorem claim_C5 (page_id : String) (fetched : FetchResult)
    (environment component new_version : String) (B : Document)
    (h : (update_version_in_cell fetched.body
        environment component new_version).1 = Except.ok B) :
    update_confluence_page page_id fetched
        environment component new_version =
      (Except.ok (), [⟨page_id, fetched.title, serialize B, true⟩]) := by
  simp only [update_confluence_page, h]

/-- Witness for C5: the publishing scenario of the test suite — fetch
returns the fixture body with title `Mock Page Title`, and the single
update call carries the page id `123456`, that title, the serialized
mutated body, and the minor-edit flag. -/
theorem claim_C5_witness :
    update_confluence_page ("123456") ⟨sampleDoc, ("Mock Page Title")⟩
        ("DEV") ("cpt1") ("2.3.4") =
      (Except.ok (),
       [⟨("123456"), ("Mock Page Title"), serialize sampleDocUpdated,
         true⟩]) :=
  claim_C5 ("123456") ⟨sampleDoc, ("Mock Page Title")⟩ ("DEV") ("cpt1")
    ("2.3.4") sampleDocUpdated (by rfl)

/-- C6: both lookups compare by case-insensitive exact equality of the
whitespace-stripped cell text with the query — not substring containment:
the component test holds exactly when the lowercased stripped cell text
equals the lowercased component, the environment test exactly when the
uppercased stripped first-cell text equals the uppercased environment; in
particular `dev` matches a row labeled `DEV`, a cell whose text merely
contains `dev` does not match (indeed any match forces the stripped cell
text and the query to have the same length, which substring containment
does not), and surrounding whitespace in the cell text is ignored. -/
theorem claim_C6 :
    (∀ (component : String) (c : Cell),
        compMatches component c = true ↔
          strLower (getTextStripped c) = strLower component) ∧
    (∀ (environment : String) (c : Cell) (rest : List Cell),
        envRowMatches environment ⟨c :: rest⟩ = true ↔
          strUpper (getTextStripped c) = strUpper environment) ∧
    (∀ (component : String) (c : Cell), compMatches component c = true →
        (getTextStripped c).data.length = component.data.length) ∧
    envRowMatches ("dev") ⟨[⟨CellTag.th, [Node.text ("DEV")]⟩]⟩ = true ∧
    compMatches ("dev") ⟨CellTag.td, [Node.text ("DEV")]⟩ = true ∧
    compMatches ("dev") ⟨CellTag.td, [Node.text ("my-dev-x")]⟩ = false ∧
    envRowMatches ("dev") ⟨[⟨CellTag.th, [Node.text ("xDEVx")]⟩]⟩ = false ∧
    compMatches ("DEV") ⟨CellTag.td, [Node.text ("  dev  ")]⟩ = true := by
  refine ⟨?_, ?_, ?_, ?_, ?_, ?_, ?_, ?_⟩
  · intro component c
    simp [compMatches]
  · intro environment c rest
    simp [envRowMatches]
  · intro component c h
    rw [compMatches, decide_eq_true_eq] at h
    have hlen := congrArg (fun s => s.data.length) h
    simpa [strLower] using hlen
  · decide
  · decide
  · decide
  · decide
  · decide

/-- Witness for C6: the match of `dev` against the cell labeled `DEV`
forces equal text lengths, instantiating the exact-equality part at a
concrete input. -/
theorem claim_C6_witness :
    (getTextStripped ⟨CellTag.td, [Node.text ("DEV")]⟩).data.length =
      ("dev").data.length :=
  claim_C6.2.2.1 ("dev") ⟨CellTag.td, [Node.text ("DEV")]⟩ (by decide)

/-- C9: whenever the table mutator raises, `update_confluence_page`
propagates the error and issues no update call at all, leaving the remote
page untouched by the run. -/
theorem claim_C9 (page_id : String) (fetched : FetchResult)
    (environment component new_version : String) (err : Err)
    (h : (update_version_in_cell fetched.body
        environment component new_version).1 = Except.error err) :
    update_confluence_page page_id fetched
        environment component new_version =
      (Except.error err, []) := by
  simp only [update_confluence_page, h]

/-- Witness for C9: requesting the absent component `cpt_missing` makes
the whole run fail with the component-not-found error and no update call
is issued. -/
theorem claim_C9_witness :
    update_confluence_page ("123456") ⟨sampleDoc, ("Mock Page Title")⟩
        ("DEV") ("cpt_missing") ("2.3.4") =
      (Except.error (Err.componentNotFound ("cpt_missing")), []) :=
  claim_C9 ("123456") ⟨sampleDoc, ("Mock Page Title")⟩ ("DEV")
    ("cpt_missing") ("2.3.4") (Err.componentNotFound ("cpt_missing"))
    (by rfl)

/-- C10: after the environment row is matched, the target access has no
guard: when the matched row has at most `component_index - 1` many `td`
cells, or the target cell holds no paragraph, the call fails with the
unnamed `IndexError` / `AttributeError` — never with one of the two named
`ValueError`s — and the document is unchanged. -/
theorem claim_C10 (ts : List Table) (r0 r1 : Row) (drs : List Row)
    (environment component new_version : String) (i j : Nat) (row : Row)
    (hcomp : findCompIdx component r1.cells = some i)
    (henv : findEnvRow environment drs = some (j, row))
    (hbad : (row.cells.filter isTd).get? i = none ∨
      ∃ target, (row.cells.filter isTd).get? i = some target ∧
        hasPara target = false) :
    (update_version_in_cell ⟨⟨r0 :: r1 :: drs⟩ :: ts⟩
          environment component new_version =
        (Except.error Err.indexError, ⟨⟨r0 :: r1 :: drs⟩ :: ts⟩) ∨
     update_version_in_cell ⟨⟨r0 :: r1 :: drs⟩ :: ts⟩
          environment component new_version =
        (Except.error Err.attributeError, ⟨⟨r0 :: r1 :: drs⟩ :: ts⟩)) ∧
    (∀ s, (update_version_in_cell ⟨⟨r0 :: r1 :: drs⟩ :: ts⟩
        environment component new_version).1 ≠
      Except.error (Err.componentNotFound s)) ∧
    (∀ s, (update_version_in_cell ⟨⟨r0 :: r1 :: drs⟩ :: ts⟩
        environment component new_version).1 ≠
      Except.error (Err.environmentNotFound s)) := by
  rcases hbad with hnone | ⟨target, htgt, hp⟩
  · have h := update_run_index_error ts r0 r1 drs environment component
      new_version i j row hcomp henv hnone
    rw [h]
    exact ⟨Or.inl rfl, by simp, by simp⟩
  · have h := update_run_attribute_error ts r0 r1 drs environment component
      new_version i j row target hcomp henv htgt hp
    rw [h]
    exact ⟨Or.inr rfl, by simp, by simp⟩

/-- Witness for C10: in `shortDoc` the `DEV` row has a single `td` cell
while `cpt2` sits in the second column, so the update dies with the
unnamed `IndexError` instead of a named lookup error. -/
theorem claim_C10_witness :
    (update_version_in_cell shortDoc ("DEV") ("cpt2") ("9.9") =
        (Except.error Err.indexError, shortDoc) ∨
     update_version_in_cell shortDoc ("DEV") ("cpt2") ("9.9") =
        (Except.error Err.attributeError, shortDoc)) ∧
    (∀ s, (update_version_in_cell shortDoc ("DEV") ("cpt2") ("9.9")).1 ≠
      Except.error (Err.componentNotFound s)) ∧
    (∀ s, (update_version_in_cell shortDoc ("DEV") ("cpt2") ("9.9")).1 ≠
      Except.error (Err.environmentNotFound s)) :=
  claim_C10 [] mixedRow0 mixedRow1 [shortRow] ("DEV") ("cpt2") ("9.9") 1 0
    shortRow (by decide) (by decide) (Or.inl (by decide))

/-- C7: first match wins on both axes.  On any successful run, the
1-based `component_index` comes from the leftmost header cell matching the
component (every earlier cell fails the test), the selected data row is
the first one matching the environment (every earlier data row fails the
test), and every row other than the selected one — in particular every
later row that may also match — is returned unchanged (the scan returns
immediately). -/
theorem claim_C7 (ts : List Table) (r0 r1 : Row) (drs : List Row)
    (environment component new_version : String) (i : Nat) (d' : Document)
    (hcomp : findCompIdx component r1.cells = some i)
    (h : (update_version_in_cell ⟨⟨r0 :: r1 :: drs⟩ :: ts⟩
        environment component new_version).1 = Except.ok d') :
    componentIndexOf ⟨⟨r0 :: r1 :: drs⟩ :: ts⟩ component = some (i + 1) ∧
    (∃ cell, r1.cells.get? i = some cell ∧
      compMatches component cell = true) ∧
    (∀ i' cell', i' < i → r1.cells.get? i' = some cell' →
      compMatches component cell' = false) ∧
    ∃ j row, findEnvRow environment drs = some (j, row) ∧
      envRowMatches environment row = true ∧
      (∀ j' row', j' < j → drs.get? j' = some row' →
        envRowMatches environment row' = false) ∧
      ∀ ri, ri ≠ j + 2 →
        rowAt d' 0 ri = rowAt ⟨⟨r0 :: r1 :: drs⟩ :: ts⟩ 0 ri := by
  obtain ⟨i₀, j, row, target, hcomp₀, henv, htgt, hp, hd'⟩ :=
    update_ok_inv ts r0 r1 drs environment component new_version d' h
  have hii : i = i₀ := by
    rw [hcomp] at hcomp₀
    exact Option.some.inj hcomp₀
  subst hii
  obtain ⟨-, hcell, hmin⟩ := findCompIdx_spec component r1.cells i hcomp
  obtain ⟨hjlen, hjget, hjm, hjmin⟩ :=
    findEnvRow_spec environment drs j row henv
  subst hd'
  refine ⟨by simp [componentIndexOf, hcomp], hcell, hmin, j, row, henv,
    hjm, hjmin, ?_⟩
  intro ri hri
  match ri with
  | 0 => rfl
  | 1 => rfl
  | m + 2 =>
    rw [rowAt_cons2, rowAt_cons2]
    exact setRowAt_get?_other drs j _ m (by omega)

/-- Witness for C7 at `dupDoc`, whose header names `cpt1` twice and which
has two `DEV` rows: the update uses the first column and rewrites only the
first `DEV` row. -/
theorem claim_C7_witness :
    componentIndexOf dupDoc ("cpt1") = some 1 ∧
    (∃ cell, dupRow1.cells.get? 0 = some cell ∧
      compMatches ("cpt1") cell = true) ∧
    (∀ i' cell', i' < 0 → dupRow1.cells.get? i' = some cell' →
      compMatches ("cpt1") cell' = false) ∧
    ∃ j row, findEnvRow ("DEV") [dupRowA, dupRowB] = some (j, row) ∧
      envRowMatches ("DEV") row = true ∧
      (∀ j' row', j' < j → [dupRowA, dupRowB].get? j' = some row' →
        envRowMatches ("DEV") row' = false) ∧
      ∀ ri, ri ≠ j + 2 →
        rowAt dupDocAfter 0 ri = rowAt dupDoc 0 ri :=
  claim_C7 [] mixedRow0 dupRow1 [dupRowA, dupRowB] ("DEV") ("cpt1") ("9.9")
    0 dupDocAfter (by decide) (by rfl)

/-- Counterexample to C1 as stated.  In `mixedDoc` the matched `DEV` row
starts with a data-tagged (`td`) cell and `component_index = 2`: the
claim places the update at position `component_index - 1 = 1` among the
non-first cells, i.e. at absolute cell 2 (the `cpt2` column, holding `B`),
yet the program leaves that cell unchanged and instead rewrites absolute
cell 1 (the `cpt1` column, holding `A`) — the `td` first cell was counted
as a data cell. -/
theorem claim_C1_counterexample :
    componentIndexOf mixedDoc ("cpt2") = some 2 ∧
    envRowIndexOf mixedDoc ("DEV") = some 2 ∧
    (update_version_in_cell mixedDoc ("DEV") ("cpt2") ("9.9")).1 =
      Except.ok (mixedDocAfter ("9.9")) ∧
    cellAt (mixedDocAfter ("9.9")) 0 2 2 = cellAt mixedDoc 0 2 2 ∧
    paraTextAt (mixedDocAfter ("9.9")) 0 2 2 = some ("B") ∧
    cellAt (mixedDocAfter ("9.9")) 0 2 1 =
      some ⟨CellTag.td, [Node.para ("9.9")]⟩ ∧
    cellAt mixedDoc 0 2 1 = some ⟨CellTag.td, [Node.para ("A")]⟩ :=
  ⟨by decide, by decide, by rfl, by decide, by decide, by decide, by decide⟩

/-- C1 as amended: the data-cell list from which the target is picked is
the list of the row's `td`-tagged cells, so a header-tagged (`th`) first
cell is excluded but a data-tagged (`td`) first cell is counted.  The cell
rewritten is the one at position `component_index - 1 = i` of that list,
sitting at absolute position `m = posOfNthTd row.cells i`; every other
cell of the row is unchanged; and only when the first cell is a `th` does
`m` shift by one, making the target the cell at position
`component_index - 1` among the non-first cells. -/
theorem claim_C1_amended (ts : List Table) (r0 r1 : Row) (drs : List Row)
    (environment component new_version : String) (i j m : Nat) (row : Row)
    (target : Cell)
    (hcomp : findCompIdx component r1.cells = some i)
    (henv : findEnvRow environment drs = some (j, row))
    (hm : posOfNthTd row.cells i = some m)
    (htgt : row.cells.get? m = some target)
    (hp : hasPara target = true) :
    ∃ d',
      (update_version_in_cell ⟨⟨r0 :: r1 :: drs⟩ :: ts⟩
          environment component new_version).1 = Except.ok d' ∧
      cellAt d' 0 (j + 2) m = some (modifyCell target new_version) ∧
      (∀ ci, ci ≠ m → cellAt d' 0 (j + 2) ci =
        cellAt ⟨⟨r0 :: r1 :: drs⟩ :: ts⟩ 0 (j + 2) ci) ∧
      ∀ c0 rest2, row.cells = c0 :: rest2 → c0.tag = CellTag.th →
        ∃ m', m = m' + 1 ∧ posOfNthTd rest2 i = some m' := by
  have htgt' : (row.cells.filter isTd).get? i = some target := by
    rw [posOfNthTd_filter_get row.cells i m hm]
    exact htgt
  have hrun := update_run_ok ts r0 r1 drs environment component new_version
    i j row target hcomp henv htgt' hp
  obtain ⟨hjlen, hjget, -, -⟩ := findEnvRow_spec environment drs j row henv
  refine ⟨_, by rw [hrun], ?_, ?_, ?_⟩
  · rw [cellAt_eq, rowAt_cons2, setRowAt_get?_self drs j _ hjlen]
    show (setNthTd row.cells i new_version).get? m =
      some (modifyCell target new_version)
    rw [setNthTd_get?_pos row.cells i new_version m hm, htgt]
    rfl
  · intro ci hci
    rw [cellAt_eq, rowAt_cons2, setRowAt_get?_self drs j _ hjlen,
      cellAt_eq, rowAt_cons2, hjget]
    show (setNthTd row.cells i new_version).get? ci = row.cells.get? ci
    exact setNthTd_get?_other row.cells i new_version m ci hm hci
  · intro c0 rest2 hcells htag
    rw [hcells] at hm
    have hc0 : isTd c0 = false := by simp [isTd, htag]
    simp only [posOfNthTd, hc0, Bool.false_eq_true, if_false] at hm
    cases hrec : posOfNthTd rest2 i with
    | none => rw [hrec] at hm; simp at hm
    | some m₀ =>
      rw [hrec] at hm
      simp at hm
      exact ⟨m₀, by omega, rfl⟩

/-- Witness for the amended C1 at `mixedDoc`: with `component_index = 2`
(`i = 1`) the second `td` of the matched row sits at absolute position 1,
and exactly that cell is rewritten. -/
theorem claim_C1_witness :
    ∃ d',
      (update_version_in_cell mixedDoc ("DEV") ("cpt2") ("9.9")).1 =
        Except.ok d' ∧
      cellAt d' 0 2 1 =
        some (modifyCell ⟨CellTag.td, [Node.para ("A")]⟩ ("9.9")) ∧
      (∀ ci, ci ≠ 1 → cellAt d' 0 2 ci = cellAt mixedDoc 0 2 ci) ∧
      ∀ c0 rest2, mixedRow2.cells = c0 :: rest2 →
        c0.tag = CellTag.th →
        ∃ m', 1 = m' + 1 ∧ posOfNthTd rest2 1 = some m' :=
  claim_C1_amended [] mixedRow0 mixedRow1 [mixedRow2] ("DEV") ("cpt2")
    ("9.9") 1 0 1 mixedRow2 ⟨CellTag.td, [Node.para ("A")]⟩ (by decide)
    (by decide) (by decide) (by decide) (by decide)

/-- Counterexample to C2 as stated.  `mixedDoc` has the section-3 shape
(decorative row, component header row, data rows with one single-paragraph
version cell per column — the first-cell tag is not constrained by the
spec, which expects mixed tag usage) and the pair (`DEV`, `cpt2`) is
present, yet the update for that pair leaves the targeted `cpt2` cell
(text `B`) untouched and rewrites a different cell, the `cpt1` one. -/
theorem claim_C2_counterexample :
    specShaped mixedDoc = true ∧
    mixedRow1.cells.any (compMatches ("cpt2")) = true ∧
    [mixedRow2].any (envRowMatches ("DEV")) = true ∧
    componentIndexOf mixedDoc ("cpt2") = some 2 ∧
    envRowIndexOf mixedDoc ("DEV") = some 2 ∧
    (update_version_in_cell mixedDoc ("DEV") ("cpt2") ("7.7")).1 =
      Except.ok (mixedDocAfter ("7.7")) ∧
    paraTextAt (mixedDocAfter ("7.7")) 0 2 2 = some ("B") ∧
    cellAt (mixedDocAfter ("7.7")) 0 2 1 ≠ cellAt mixedDoc 0 2 1 :=
  ⟨by decide, by decide, by decide, by decide, by decide, by rfl,
   by decide, by decide⟩

/-- C2 as amended: for every well-formed table — data rows starting with a
header-tagged (`th`) environment cell followed by one single-paragraph
`td` per header column — and every (environment, component) pair present
in it, the update succeeds, the targeted cell (selected environment row,
column `component_index`) ends with paragraph text `new_version`, and
every other cell of the document is unchanged. -/
theorem claim_C2_amended (ts : List Table) (r0 r1 : Row) (drs : List Row)
    (environment component new_version : String)
    (hwf : wellFormed ⟨⟨r0 :: r1 :: drs⟩ :: ts⟩ = true)
    (hc : r1.cells.any (compMatches component) = true)
    (he : drs.any (envRowMatches environment) = true) :
    ∃ d' ri k,
      componentIndexOf ⟨⟨r0 :: r1 :: drs⟩ :: ts⟩ component = some k ∧
      envRowIndexOf ⟨⟨r0 :: r1 :: drs⟩ :: ts⟩ environment = some ri ∧
      update_version_in_cell ⟨⟨r0 :: r1 :: drs⟩ :: ts⟩
          environment component new_version = (Except.ok d', d') ∧
      paraTextAt d' 0 ri k = some new_version ∧
      ∀ ti ri' ci, ¬(ti = 0 ∧ ri' = ri ∧ ci = k) →
        cellAt d' ti ri' ci =
          cellAt ⟨⟨r0 :: r1 :: drs⟩ :: ts⟩ ti ri' ci := by
  have hwf' : drs.all (dataRowOk r1.cells.length) = true := hwf
  obtain ⟨i, hcomp⟩ := findCompIdx_of_any component r1.cells hc
  obtain ⟨j, row, henv⟩ := findEnvRow_of_any environment drs he
  obtain ⟨hjlen, hjget, hjm, -⟩ := findEnvRow_spec environment drs j row henv
  obtain ⟨hilen, -, -⟩ := findCompIdx_spec component r1.cells i hcomp
  have hrowok : dataRowOk r1.cells.length row = true :=
    List.all_eq_true.mp hwf' row (List.get?_mem hjget)
  obtain ⟨rcells⟩ := row
  cases rcells with
  | nil => simp [dataRowOk] at hrowok
  | cons c0 rest =>
  simp only [dataRowOk, Bool.and_eq_true, decide_eq_true_eq] at hrowok
  obtain ⟨⟨htag, hlen⟩, hver⟩ := hrowok
  have hc0td : isTd c0 = false := by simp [isTd, htag]
  have hallTd : rest.all isTd = true := by
    rw [List.all_eq_true] at hver ⊢
    exact fun c hcmem => isTd_of_versionCell c (hver c hcmem)
  have hfilter : (c0 :: rest).filter isTd = rest := by
    rw [List.filter_cons_of_neg (by simp [hc0td]),
      filter_isTd_of_all_version rest hver]
  have hlt : i < rest.length := by omega
  cases hrg : rest.get? i with
  | none =>
    rw [List.get?_eq_none] at hrg
    omega
  | some target =>
  have hvtgt : isVersionCell target = true :=
    List.all_eq_true.mp hver target (List.get?_mem hrg)
  have hp : hasPara target = true := hasPara_of_versionCell target hvtgt
  have htgt' : ((c0 :: rest).filter isTd).get? i = some target := by
    rw [hfilter]
    exact hrg
  have hrun := update_run_ok ts r0 r1 drs environment component new_version
    i j ⟨c0 :: rest⟩ target hcomp henv htgt' hp
  have hpos_rest : posOfNthTd rest i = some i :=
    posOfNthTd_all_td rest i hallTd hlt
  have hpos : posOfNthTd (c0 :: rest) i = some (i + 1) := by
    simp [posOfNthTd, hc0td, hpos_rest]
  have hgetcell :
      (setNthTd (c0 :: rest) i new_version).get? (i + 1) =
        some (modifyCell target new_version) := by
    rw [setNthTd_get?_pos (c0 :: rest) i new_version (i + 1) hpos]
    have hrg' : rest[i]? = some target := by
      rw [← List.get?_eq_getElem?]
      exact hrg
    simp [hrg']
  refine ⟨⟨⟨r0 :: r1 ::
      setRowAt drs j ⟨setNthTd (c0 :: rest) i new_version⟩⟩ :: ts⟩,
    j + 2, i + 1, by simp [componentIndexOf, hcomp],
    by simp [envRowIndexOf, henv], hrun, ?_, ?_⟩
  · rw [paraTextAt_eq, cellAt_eq, rowAt_cons2,
      setRowAt_get?_self drs j _ hjlen]
    show (match (setNthTd (c0 :: rest) i new_version).get? (i + 1) with
      | none => none
      | some c => firstPara c.children) = some new_version
    rw [hgetcell]
    show firstPara (modifyCell target new_version).children =
      some new_version
    rw [(modifyCell_versionCell target new_version hvtgt).2]
    rfl
  · intro ti ri' ci hn
    match ti with
    | tt + 1 => rfl
    | 0 =>
      match ri' with
      | 0 => rfl
      | 1 => rfl
      | m + 2 =>
        by_cases hmj : m = j
        · subst hmj
          simp only [true_and, Nat.add_right_cancel_iff] at hn
          rw [cellAt_eq, rowAt_cons2, setRowAt_get?_self drs m _ hjlen,
            cellAt_eq, rowAt_cons2, hjget]
          show (setNthTd (c0 :: rest) i new_version).get? ci =
            (c0 :: rest).get? ci
          exact setNthTd_get?_other (c0 :: rest) i new_version (i + 1) ci
            hpos (by simpa using hn)
        · rw [cellAt_eq, rowAt_cons2, cellAt_eq, rowAt_cons2,
            setRowAt_get?_other drs j _ m hmj]

/-- Witness for the amended C2 at the repository's test fixture:
updating (`DEV`, `cpt1`) to `2.3.4` rewrites exactly the targeted cell. -/
theorem claim_C2_witness :
    ∃ d' ri k,
      componentIndexOf sampleDoc ("cpt1") = some k ∧
      envRowIndexOf sampleDoc ("DEV") = some ri ∧
      update_version_in_cell sampleDoc ("DEV") ("cpt1") ("2.3.4") =
        (Except.ok d', d') ∧
      paraTextAt d' 0 ri k = some ("2.3.4") ∧
      ∀ ti ri' ci, ¬(ti = 0 ∧ ri' = ri ∧ ci = k) →
        cellAt d' ti ri' ci = cellAt sampleDoc ti ri' ci :=
  claim_C2_amended [] sampleRow0 sampleRow1 [sampleRow2] ("DEV") ("cpt1")
    ("2.3.4") (by decide) (by decide) (by decide)

/-- Counterexample to C8 as stated.  In `idemDoc` — a section-3-shaped
table whose data rows start with `td` cells holding the environment name
in a paragraph — the update (`DEV`, `cpt1`, `2.0`) succeeds, but the
rewritten paragraph is the environment cell itself, so the second
application of the very same update no longer recognises the first row,
rewrites the second `DEV` row instead, and produces a different
document. -/
theorem claim_C8_counterexample :
    (update_version_in_cell idemDoc ("DEV") ("cpt1") ("2.0")).1 =
      Except.ok idemDocOnce ∧
    (update_version_in_cell idemDocOnce ("DEV") ("cpt1") ("2.0")).1 =
      Except.ok idemDocTwice ∧
    idemDocTwice ≠ idemDocOnce :=
  ⟨by rfl, by rfl, by decide⟩

/-- C8 as amended: on well-formed tables — data rows starting with a
header-tagged (`th`) environment cell followed by one single-paragraph
`td` per header column — the update is idempotent: whenever one
application succeeds with result `d'`, applying the same
(environment, component, new_version) again succeeds and returns `d'`
unchanged, so twice yields the same cell value and the same document as
once. -/
theorem claim_C8_amended (ts : List Table) (r0 r1 : Row) (drs : List Row)
    (environment component new_version : String) (d' : Document)
    (hwf : wellFormed ⟨⟨r0 :: r1 :: drs⟩ :: ts⟩ = true)
    (h : (update_version_in_cell ⟨⟨r0 :: r1 :: drs⟩ :: ts⟩
        environment component new_version).1 = Except.ok d') :
    update_version_in_cell d' environment component new_version =
      (Except.ok d', d') := by
  have hwf' : drs.all (dataRowOk r1.cells.length) = true := hwf
  obtain ⟨i, j, row, target, hcomp, henv, htgt, hp, hd'⟩ :=
    update_ok_inv ts r0 r1 drs environment component new_version d' h
  obtain ⟨hjlen, hjget, hjm, -⟩ := findEnvRow_spec environment drs j row henv
  have hrowok : dataRowOk r1.cells.length row = true :=
    List.all_eq_true.mp hwf' row (List.get?_mem hjget)
  obtain ⟨rcells⟩ := row
  cases rcells with
  | nil => simp [dataRowOk] at hrowok
  | cons c0 rest =>
  simp only [dataRowOk, Bool.and_eq_true, decide_eq_true_eq] at hrowok
  obtain ⟨⟨htag, -⟩, hver⟩ := hrowok
  have hc0td : isTd c0 = false := by simp [isTd, htag]
  have hallTd : rest.all isTd = true := by
    rw [List.all_eq_true] at hver ⊢
    exact fun c hcmem => isTd_of_versionCell c (hver c hcmem)
  have hfilter : (c0 :: rest).filter isTd = rest := by
    rw [List.filter_cons_of_neg (by simp [hc0td]),
      filter_isTd_of_all_version rest hver]
  rw [hfilter] at htgt
  have hlt : i < rest.length := by
    by_contra hge
    rw [List.get?_eq_none.mpr (by omega)] at htgt
    simp at htgt
  have hvtgt : isVersionCell target = true :=
    List.all_eq_true.mp hver target (List.get?_mem htgt)
  have hpos_rest : posOfNthTd rest i = some i :=
    posOfNthTd_all_td rest i hallTd hlt
  have hsnc : setNthTd (c0 :: rest) i new_version =
      c0 :: setNthTd rest i new_version :=
    setNthTd_cons_not_td c0 rest i new_version hc0td
  have hjm' : envRowMatches environment
      ⟨setNthTd (c0 :: rest) i new_version⟩ = true := by
    rw [hsnc]
    rw [envRowMatches_cons environment c0 (setNthTd rest i new_version) rest]
    exact hjm
  have henv' := findEnvRow_setRowAt environment drs j ⟨c0 :: rest⟩
    ⟨setNthTd (c0 :: rest) i new_version⟩ henv hjm'
  have hver' : (setNthTd rest i new_version).all isVersionCell = true :=
    setNthTd_all_version rest i new_version hver
  have hfilter' : ((⟨setNthTd (c0 :: rest) i new_version⟩ :
      Row).cells).filter isTd = setNthTd rest i new_version := by
    show (setNthTd (c0 :: rest) i new_version).filter isTd =
      setNthTd rest i new_version
    rw [hsnc, List.filter_cons_of_neg (by simp [hc0td]),
      filter_isTd_of_all_version _ hver']
  have hget' : (setNthTd rest i new_version).get? i =
      some (modifyCell target new_version) := by
    rw [setNthTd_get?_pos rest i new_version i hpos_rest, htgt]
    rfl
  have htgt2 : (((⟨setNthTd (c0 :: rest) i new_version⟩ :
      Row).cells).filter isTd).get? i =
        some (modifyCell target new_version) := by
    rw [hfilter']
    exact hget'
  have hp2 : hasPara (modifyCell target new_version) = true :=
    hasPara_of_versionCell _
      (modifyCell_versionCell target new_version hvtgt).1
  subst hd'
  have hrun2 := update_run_ok ts r0 r1
    (setRowAt drs j ⟨setNthTd (c0 :: rest) i new_version⟩)
    environment component new_version i j
    ⟨setNthTd (c0 :: rest) i new_version⟩
    (modifyCell target new_version) hcomp henv' htgt2 hp2
  rw [hrun2]
  have hcells : setNthTd ((⟨setNthTd (c0 :: rest) i new_version⟩ :
      Row).cells) i new_version = setNthTd (c0 :: rest) i new_version :=
    setNthTd_setNthTd (c0 :: rest) i new_version
  rw [hcells, setRowAt_idem]

/-- Witness for the amended C8 at the test fixture: re-applying
(`DEV`, `cpt1`, `2.3.4`) to the already-updated fixture document returns
it unchanged. -/
theorem claim_C8_witness :
    update_version_in_cell sampleDocUpdated ("DEV") ("cpt1") ("2.3.4") =
      (Except.ok sampleDocUpdated, sampleDocUpdated) :=
  claim_C8_amended [] sampleRow0 sampleRow1 [sampleRow2] ("DEV") ("cpt1")
    ("2.3.4") sampleDocUpdated (by decide) (by rfl)

end Confluence
